import Mathlib

/-
Verification of the query-batching and graph-reconstruction layer of
graph_from_bigquery.py against its specification.

Shallow embedding conventions:
* Python ints are `Int`; identifier lists are `List Int`.
* Python dicts are insertion-ordered association lists (`List (α × β)`)
  manipulated through `dictSet` (assignment `d[k] = v`, which keeps an
  existing key in place, as CPython does) and `dictLookup` (`d[k]` /
  `k in d.keys()`).
* The BigQuery executor is external: the rows it returns for a request are
  passed in as an explicit argument, and the query strings handed to
  `client.query` are returned as an explicit trace.
* `chunk_query_str` mutates its argument list in place via
  `segment_ids.pop(0)` (and `int_to_list` returns the caller's own list
  object), so the embedding of each stateful function also returns the
  final, caller-visible contents of that list.
-/

/-- Python dict assignment `d[k] = v` on an insertion-ordered association
list: an existing key keeps its position and gets the new value, a new key is
appended at the end (CPython 3.7+ dict semantics). -/
def dictSet {α β : Type} [DecidableEq α] : List (α × β) → α → β → List (α × β)
  | [], k, v => [(k, v)]
  | (k0, v0) :: rest, k, v =>
      if k0 = k then (k, v) :: rest else (k0, v0) :: dictSet rest k v

/-- Python dict read `d[k]` (`none` models `k not in d.keys()`). -/
def dictLookup {α β : Type} [DecidableEq α] : List (α × β) → α → Option β
  | [], _ => none
  | (k0, v0) :: rest, k => if k0 = k then some v0 else dictLookup rest k

theorem dictLookup_dictSet_self {α β : Type} [DecidableEq α]
    (d : List (α × β)) (k : α) (v : β) :
    dictLookup (dictSet d k v) k = some v := by
  induction d with
  | nil => simp [dictSet, dictLookup]
  | cons hd tl ih =>
      obtain ⟨k0, v0⟩ := hd
      by_cases h : k0 = k
      · simp [dictSet, dictLookup, h]
      · simp [dictSet, dictLookup, h, ih]

theorem dictLookup_dictSet_ne {α β : Type} [DecidableEq α]
    (d : List (α × β)) (k k' : α) (v : β) (h : k ≠ k') :
    dictLookup (dictSet d k v) k' = dictLookup d k' := by
  induction d with
  | nil => simp [dictSet, dictLookup, h]
  | cons hd tl ih =>
      obtain ⟨k0, v0⟩ := hd
      by_cases h0 : k0 = k
      · subst h0
        simp [dictSet, dictLookup, h]
      · simp [dictSet, dictLookup, h0, ih]

/-- Characters of the replacement of every `#` in `cs` by `repl`:
models Python `str.replace('#', repl)` for the single-character
placeholder token used by the query templates. -/
def replaceHashList (repl : List Char) : List Char → List Char
  | [] => []
  | c :: cs =>
      if c = '#' then repl ++ replaceHashList repl cs
      else c :: replaceHashList repl cs

/-- `query.replace('#', ','.join([str(x) for x in segment_ids]))`
(graph_from_bigquery.py line 143 and line 174, where `seg_str[:-1]` is
exactly the comma-join of the identifiers accumulated so far). -/
def renderQuery (query : String) (segment_ids : List Int) : String :=
  String.mk (replaceHashList
    (String.intercalate "," (segment_ids.map toString)).data query.data)

/-- A value appended to the list that `chunk_query_str` returns.  The slow
path appends plain strings; the fast path (line 165) appends the
single-element *list* produced by `check_query_length`, so the Python result
is heterogeneous and we need a sum-like type to express it. -/
inductive QueryItem where
  | str (s : String)
  | strList (l : List String)
deriving DecidableEq

/-- `check_query_length` (lines 136-147): renders the query in one shot and
returns the one-element list `[query_str]` if it fits in
`MAX_QUERY_LENGTH`, `None` otherwise. -/
def check_query_length (max : Nat) (query : String) (segment_ids : List Int) :
    Option (List String) :=
  if (renderQuery query segment_ids).length ≤ max then
    some [renderQuery query segment_ids]
  else
    none

/-- The nested `while` loops of `chunk_query_str` (lines 169-178), fused
into one pass over the identifiers.  `acc` is the slice accumulated in
`seg_str` for the current chunk.  One step of the Python inner loop appends
`segment_ids[0]` to `seg_str`, recomputes `query_str`, pops the identifier,
breaks out of both loops if the list is now empty (the final chunk), and
otherwise re-tests `len(query_str) <= MAX_QUERY_LENGTH`: on success the
inner loop continues with the grown slice, on failure the (now over-long)
chunk is emitted and the outer loop restarts with an empty `seg_str`.
The second component is the final contents of the caller's `segment_ids`
list, which the loop empties one `pop(0)` at a time. -/
def chunkGoRun (max : Nat) (query : String) :
    List Int → List Int → List (List Int) × List Int
  | _, [] => ([], [])
  | acc, x :: rest =>
      if rest = [] then ([acc ++ [x]], [])
      else if (renderQuery query (acc ++ [x])).length ≤ max then
        chunkGoRun max query (acc ++ [x]) rest
      else
        let t := chunkGoRun max query [] rest
        ((acc ++ [x]) :: t.1, t.2)

/-- `chunk_query_str` (lines 149-185) together with the caller-visible
final contents of the `segment_ids` argument (the Python function mutates
the caller's list in place, because `int_to_list` returns the same list
object and the loop pops from it).  The fast path (lines 163-165) returns
`[query_str]` where `query_str` is already the *list* produced by
`check_query_length`, hence the `QueryItem.strList` wrapping; it does not
touch `segment_ids`.  The slow path appends one rendered string per chunk
(each chunk's appended `query_str` is the rendering of its accumulated
slice) and leaves `segment_ids` as the loop left it. -/
def chunk_query_str_run (max : Nat) (query : String) (segment_ids : List Int) :
    List QueryItem × List Int :=
  match check_query_length max query segment_ids with
  | some qs => ([QueryItem.strList qs], segment_ids)
  | none =>
      let t := chunkGoRun max query [] segment_ids
      (t.1.map (fun c => QueryItem.str (renderQuery query c)), t.2)

/-- The return value of `chunk_query_str`. -/
def chunk_query_str (max : Nat) (query : String) (segment_ids : List Int) :
    List QueryItem :=
  (chunk_query_str_run max query segment_ids).1

/-- The identifier slices whose renderings `chunk_query_str` emits, one per
batch in batch order: the whole list on the fast path, the accumulated
`seg_str` slices of the loop otherwise. -/
def chunk_slices (max : Nat) (query : String) (segment_ids : List Int) :
    List (List Int) :=
  match check_query_length max query segment_ids with
  | some _ => [segment_ids]
  | none => (chunkGoRun max query [] segment_ids).1

theorem chunkGoRun_join (max : Nat) (query : String) :
    ∀ (l : List Int) (acc : List Int), l ≠ [] →
      ((chunkGoRun max query acc l).1).flatten = acc ++ l := by
  intro l
  induction l with
  | nil => intro acc h; exact absurd rfl h
  | cons x rest ih =>
      intro acc _
      by_cases hr : rest = []
      · subst hr
        simp [chunkGoRun]
      · by_cases hlen : (renderQuery query (acc ++ [x])).length ≤ max
        · simp only [chunkGoRun, if_neg hr, if_pos hlen]
          rw [ih (acc ++ [x]) hr]
          simp
        · simp only [chunkGoRun, if_neg hr, if_neg hlen, List.flatten]
          rw [ih [] hr]
          simp

theorem chunkGoRun_snd (max : Nat) (query : String) :
    ∀ (l : List Int) (acc : List Int), (chunkGoRun max query acc l).2 = [] := by
  intro l
  induction l with
  | nil => intro acc; simp [chunkGoRun]
  | cons x rest ih =>
      intro acc
      by_cases hr : rest = []
      · subst hr; simp [chunkGoRun]
      · by_cases hlen : (renderQuery query (acc ++ [x])).length ≤ max
        · simp only [chunkGoRun, if_neg hr, if_pos hlen]
          exact ih (acc ++ [x])
        · simp only [chunkGoRun, if_neg hr, if_neg hlen]
          exact ih []

/-- On the fast path (single-shot rendering fits the bound) the caller's
list is left untouched. -/
theorem chunk_run_snd_of_fit (max : Nat) (query : String) (segment_ids : List Int)
    (h : (renderQuery query segment_ids).length ≤ max) :
    (chunk_query_str_run max query segment_ids).2 = segment_ids := by
  simp [chunk_query_str_run, check_query_length, h]

/-- Whenever chunking occurs, the loop empties the caller's list. -/
theorem chunk_run_snd_of_chunked (max : Nat) (query : String) (segment_ids : List Int)
    (h : ¬ (renderQuery query segment_ids).length ≤ max) :
    (chunk_query_str_run max query segment_ids).2 = [] := by
  simp [chunk_query_str_run, check_query_length, h, chunkGoRun_snd]

/-- The construction-time configuration of `BigQueryAgglomerationGraph`
that the core functions read: the two (project-qualified) table names and
the `MAX_QUERY_LENGTH` attribute (set to 1024000 in `__init__`). -/
structure GraphConfig where
  representative_tbl : String
  src_tbl : String
  MAX_QUERY_LENGTH : Nat

/-- Query template of `query_parent(sv_id, return_mapping=True)`
(lines 307-308). -/
def parent_mapping_query (tbl : String) : String :=
  "SELECT id_a, id_b FROM `" ++ tbl ++ "` WHERE id_a IN (#)"

/-- Query template of `query_supervoxel_members(sv_id, return_mapping=True)`
(lines 269-270). -/
def member_mapping_query (tbl : String) : String :=
  "SELECT id_a, id_b FROM `" ++ tbl ++ "` WHERE id_b IN (#)"

/-- Query template of `query_src_edge_list` (lines 198-199). -/
def src_edge_two_sided_query (tbl : String) : String :=
  "SELECT id1, id2 FROM `" ++ tbl ++ "` WHERE id1 IN (#) OR id2 IN (#)"

/-- Query template of `query_src_edge_list_agglo_objects` (line 235). -/
def src_edge_one_sided_query (tbl : String) : String :=
  "SELECT id1, id2 FROM `" ++ tbl ++ "` WHERE id1 IN (#)"

/-- The fragment of the Python value space that `int_to_list` (lines 8-24)
can receive: an int, a list of ints, or something else — a tuple of ints, a
string, or `None` (the latter three all fail both `isinstance(item, int)`
and `isinstance(item, list)`). -/
inductive PyInput where
  | int (n : Int)
  | list (l : List Int)
  | tuple (l : List Int)
  | str (s : String)
  | noneVal
deriving DecidableEq

/-- Python `type(item)` rendered as the type name, for the `ValueError`
payload. -/
def PyInput.typeName : PyInput → String
  | PyInput.int _ => "int"
  | PyInput.list _ => "list"
  | PyInput.tuple _ => "tuple"
  | PyInput.str _ => "str"
  | PyInput.noneVal => "NoneType"

/-- `int_to_list` (lines 8-24): `[item]` for an int, the list itself for a
list, otherwise `raise ValueError("input needs to be integer or list, not",
type(item))` — the error payload is the two-element argument tuple of that
`ValueError`. -/
def int_to_list : PyInput → Except (String × String) (List Int)
  | PyInput.int n => Except.ok [n]
  | PyInput.list l => Except.ok l
  | item => Except.error ("input needs to be integer or list, not", item.typeName)

/-- The dict comprehension `{child: parent for child, parent in results}`
(line 343 and line 378): later rows for the same child overwrite earlier
ones. -/
def parent_dict (rows : List (Int × Int)) : List (Int × Int) :=
  rows.foldl (fun d cp => dictSet d cp.1 cp.2) []

/-- The parent of the last row mentioning `sv` as child, if any: the
last-write-wins value a Python dict comprehension keeps. -/
def last_parent (rows : List (Int × Int)) (sv : Int) : Option Int :=
  rows.foldl (fun acc r => if r.1 = sv then some r.2 else acc) none

/-- What the loop body of `get_map` (lines 349-353) appends for one
segment: `maps[sv]` when present, else `sv` itself. -/
def resolve_parent (rows : List (Int × Int)) (sv : Int) : Int :=
  (dictLookup (parent_dict rows) sv).getD sv

/-- `get_map` (lines 331-354).  `rows` are the `(id_a, id_b)` =
`(child, parent)` tuples the executor returned for the parent-mapping
query.  The final loop `for sv in sv_id` runs over the caller's list as
`chunk_query_str` left it (the parent query is built from `sv_id` itself,
and chunking pops the list empty in place). -/
def get_map (cfg : GraphConfig) (sv_id : List Int) (rows : List (Int × Int)) :
    List Int :=
  let sv_after := (chunk_query_str_run cfg.MAX_QUERY_LENGTH
      (parent_mapping_query cfg.representative_tbl) sv_id).2
  sv_after.map (fun sv => (dictLookup (parent_dict rows) sv).getD sv)

/-- The `mapping` dict of `get_groups` (lines 380-382): fold over the
insertion-ordered items of `representative_graph = {child: parent ...}`,
collecting for each parent the list of its children in item order. -/
def member_mapping (memberRows : List (Int × Int)) : List (Int × List Int) :=
  (parent_dict memberRows).foldl
    (fun m cp =>
      dictSet m cp.2
        (match dictLookup m cp.2 with
         | some l => l ++ [cp.1]
         | none => [cp.1]))
    []

/-- The `members` loop of `get_groups` (lines 384-393), iterating
`zip(sv_id, parents)`: an entry `[p] + mapping[p]` when the parent was
retrieved, `[seg]` when it was not but the segment is its own parent, and
`raise ValueError(...)` otherwise. -/
def members_loop (mapping : List (Int × List Int)) :
    List (Int × Int) → List (Int × List Int) →
    Except String (List (Int × List Int))
  | [], members => Except.ok members
  | (seg, p) :: rest, members =>
      match dictLookup mapping p with
      | some children => members_loop mapping rest (dictSet members seg (p :: children))
      | none =>
          if seg ≠ p then
            Except.error ("This should not happen: parent " ++ toString p
              ++ " not retrieved for segment " ++ toString seg)
          else
            members_loop mapping rest (dictSet members seg [seg])

/-- `get_groups` (lines 356-394).  `parentRows` are the rows the executor
returned for the parent query issued by the inner `get_map` call,
`memberRows` the `(id_a, id_b)` = `(child, parent)` rows it returned for
the member query over `unique_parents` (which rows come back is the
executor's business, so both are parameters).  `zip(sv_id, parents)`
runs over the caller's list as the parent query's chunking left it;
`parents` is the value `get_map` returned for the same list. -/
def get_groups (cfg : GraphConfig) (sv_id : List Int)
    (parentRows memberRows : List (Int × Int)) :
    Except String (List (Int × List Int)) :=
  let parents := get_map cfg sv_id parentRows
  let sv_after := (chunk_query_str_run cfg.MAX_QUERY_LENGTH
      (parent_mapping_query cfg.representative_tbl) sv_id).2
  members_loop (member_mapping memberRows) (sv_after.zip parents) []

/-- A configuration with the production `MAX_QUERY_LENGTH` of 1024000 and
short table names, used in concrete scenarios. -/
def cfg1M : GraphConfig := ⟨"rep", "src", 1024000⟩

theorem parent_dict_lookup_aux (k : Int) :
    ∀ (rows : List (Int × Int)) (d : List (Int × Int)) (acc : Option Int),
      dictLookup d k = acc →
      dictLookup (rows.foldl (fun d cp => dictSet d cp.1 cp.2) d) k
        = rows.foldl (fun acc r => if r.1 = k then some r.2 else acc) acc := by
  intro rows
  induction rows with
  | nil => intro d acc h; simpa using h
  | cons r rs ih =>
      intro d acc h
      simp only [List.foldl_cons]
      apply ih
      by_cases hr : r.1 = k
      · subst hr
        simp [dictLookup_dictSet_self]
      · rw [dictLookup_dictSet_ne _ _ _ _ hr, if_neg hr]
        exact h

/-- The dict comprehension over parent rows is last-write-wins: looking a
child up yields the parent of the last row mentioning it. -/
theorem parent_dict_lookup (rows : List (Int × Int)) (k : Int) :
    dictLookup (parent_dict rows) k = last_parent rows k :=
  parent_dict_lookup_aux k rows [] none rfl

/-- On inputs whose parent query fits the length bound in one shot (so the
caller's list survives), `get_map` maps each input identifier to the parent
of the last row mentioning it, or to itself when no row mentions it. -/
theorem get_map_of_fit (cfg : GraphConfig) (sv_id : List Int)
    (rows : List (Int × Int))
    (h : (renderQuery (parent_mapping_query cfg.representative_tbl) sv_id).length
        ≤ cfg.MAX_QUERY_LENGTH) :
    get_map cfg sv_id rows
      = sv_id.map (fun sv => (last_parent rows sv).getD sv) := by
  unfold get_map
  rw [chunk_run_snd_of_fit _ _ _ h]
  simp only [parent_dict_lookup]

/-- Claim C1 (code bug evaluation): with the small test bound of the spec
scenario (`MAX_QUERY_LENGTH = 20`) and 3 identifiers whose single-shot
rendering has length 21 > 20, `chunk_query_str` returns ONE batch — not at
least two — and that batch's rendered string has length 21, exceeding the
bound: the inner loop appends an identifier first and only afterwards
re-tests the length, so it emits chunks that already overshot the bound. -/
theorem c1_overlength_batch :
    chunk_query_str 20 "0123456789#" [100, 200, 300]
        = [QueryItem.str "0123456789100,200,300"]
      ∧ (renderQuery "0123456789#" [100, 200, 300]).length = 21
      ∧ (chunk_query_str 20 "0123456789#" [100, 200, 300]).length = 1 :=
  ⟨rfl, rfl, rfl⟩

/-- Claim C2 (code bug evaluation): on the fast path `chunk_query_str`
executes `return [query_str]` where `query_str` is already the one-element
list returned by `check_query_length`, so for a fits-in-one-shot input the
result is the doubly wrapped `[["Q1"]]`, not the single-element list of the
rendered query string `["Q1"]` that the claim (and the function's own
callers, which pass each element to `client.query`) expect. -/
theorem c2_fast_path_nested_list :
    chunk_query_str 1024000 "Q#" [1] = [QueryItem.strList ["Q1"]]
      ∧ chunk_query_str 1024000 "Q#" [1] ≠ [QueryItem.str "Q1"]
      ∧ (renderQuery "Q#" [1]).length ≤ 1024000 :=
  ⟨rfl, by decide, by decide⟩

/-- Claim C3 (code bug evaluation): when the parent query does not fit the
length bound in one shot, `chunk_query_str` pops the caller's `sv_id` list
empty in place, so `get_map`'s final loop `for sv in sv_id` iterates an
empty list and returns `[]` instead of one parent per input identifier
(here: `[5, 6]` with no parent rows must give `[5, 6]`, the code gives
`[]`).  The claim's own small scenario, which fits in one shot at the
production bound, does hold: `get_map([5])` with no rows is `[5]`. -/
theorem c3_get_map_loses_entries :
    get_map ⟨"t", "s", 20⟩ [5, 6] [] = []
      ∧ ([] : List Int) ≠ [5, 6]
      ∧ get_map cfg1M [5] [] = [5] :=
  ⟨rfl, by decide, rfl⟩

/-- Claim C5 (code bug evaluation): `chunk_query_str` is not side-effect
free — whenever chunking occurs it empties the caller's identifier list in
place (`int_to_list` returns the same list object and the loop pops from
it), so after the call the caller's list is `[]`, not the original three
identifiers. -/
theorem c5_caller_list_emptied :
    (chunk_query_str_run 20 "0123456789#" [100, 200, 300]).2 = []
      ∧ ([] : List Int) ≠ [100, 200, 300] :=
  ⟨rfl, by decide⟩

/-- Claim C6: for every non-empty identifier sequence, the per-batch
identifier slices that the Query Batcher renders (the whole list on the
fast path, the accumulated `seg_str` slices otherwise), concatenated in
batch order, reproduce the original sequence exactly — no identifier lost,
reordered, or duplicated. -/
theorem c6_slices_concat_original (max : Nat) (query : String)
    (segment_ids : List Int) (h : segment_ids ≠ []) :
    (chunk_slices max query segment_ids).flatten = segment_ids := by
  unfold chunk_slices
  split
  · simp
  · simpa using chunkGoRun_join max query segment_ids [] h

/-- Concrete instance of C6 at `max = 0`, template `#`, identifiers `[7]`. -/
theorem c6_slices_concat_original_witness :
    (chunk_slices 0 "#" [7]).flatten = [7] :=
  c6_slices_concat_original 0 "#" [7] (by decide)

/-- Claim C9 (counterexample): a tuple of integers is a sequence of
integers, but `isinstance(item, list)` is false for it, so `int_to_list`
raises `ValueError` instead of returning the ordered list `[1, 2]` that the
claim requires for every sequence-of-integers input. -/
theorem c9_tuple_counterexample :
    int_to_list (PyInput.tuple [1, 2])
        = Except.error ("input needs to be integer or list, not", "tuple")
      ∧ int_to_list (PyInput.tuple [1, 2]) ≠ Except.ok [1, 2] :=
  ⟨rfl, fun h => Except.noConfusion h⟩

/-- Claim C9 as amended: `int_to_list` returns `[x]` for a single integer,
returns a list argument itself (same elements, same order, duplicates
kept), and raises `ValueError` — before any query is built — for every
other input, including sequence types other than `list` such as tuples. -/
theorem c9_int_to_list_trichotomy :
    (∀ n : Int, int_to_list (PyInput.int n) = Except.ok [n])
      ∧ (∀ l : List Int, int_to_list (PyInput.list l) = Except.ok l)
      ∧ (∀ l : List Int, int_to_list (PyInput.tuple l)
          = Except.error ("input needs to be integer or list, not", "tuple"))
      ∧ (∀ s : String, int_to_list (PyInput.str s)
          = Except.error ("input needs to be integer or list, not", "str"))
      ∧ int_to_list PyInput.noneVal
          = Except.error ("input needs to be integer or list, not", "NoneType") :=
  ⟨fun _ => rfl, fun _ => rfl, fun _ => rfl, fun _ => rfl, rfl⟩

/-- Claim C10 (counterexample): two parent rows for child 1 with differing
parents 2 and 3 do not abort `get_map`; the dict comprehension silently
keeps the later row's parent and `get_map` returns `[3]`. -/
theorem c10_no_abort_on_conflict :
    get_map cfg1M [1] [(1, 2), (1, 3)] = [3] ∧ (3 : Int) ≠ 2 :=
  ⟨rfl, by decide⟩

/-- Claim C10 as amended: duplicate child rows are resolved silently and
last-write-wins — for every input whose parent query fits the bound in one
shot, each identifier's entry is the parent of the LAST row mentioning it
(itself if no row mentions it); no consistency error is ever raised. -/
theorem c10_last_write_wins (cfg : GraphConfig) (sv_id : List Int)
    (rows : List (Int × Int))
    (h : (renderQuery (parent_mapping_query cfg.representative_tbl) sv_id).length
        ≤ cfg.MAX_QUERY_LENGTH) :
    get_map cfg sv_id rows
      = sv_id.map (fun sv => (last_parent rows sv).getD sv) :=
  get_map_of_fit cfg sv_id rows h

/-- Concrete instance of C10's amended statement: the conflicting rows
`(1→2), (1→3)` resolve to the later parent 3. -/
theorem c10_last_write_wins_witness :
    get_map cfg1M [1] [(1, 2), (1, 3)]
      = [1].map (fun sv => (last_parent [(1, 2), (1, 3)] sv).getD sv) :=
  c10_last_write_wins cfg1M [1] [(1, 2), (1, 3)] (by decide)

theorem resolve_parent_eq_last (rows : List (Int × Int)) (sv : Int) :
    resolve_parent rows sv = (last_parent rows sv).getD sv := by
  unfold resolve_parent
  rw [parent_dict_lookup]

/-- If some zipped `(segment, parent)` pair has a parent that is absent from
`mapping` and differs from its segment, the members loop raises. -/
theorem members_loop_error (mapping : List (Int × List Int)) (seg p : Int)
    (hnone : dictLookup mapping p = none) (hne : seg ≠ p) :
    ∀ (pairs : List (Int × Int)) (acc : List (Int × List Int)),
      (seg, p) ∈ pairs →
      ∃ msg, members_loop mapping pairs acc = Except.error msg := by
  intro pairs
  induction pairs with
  | nil => intro acc h; simp at h
  | cons q rest ih =>
      obtain ⟨s0, p0⟩ := q
      intro acc hmem
      cases hl : dictLookup mapping p0 with
      | some children =>
          have hrest : (seg, p) ∈ rest := by
            rcases List.mem_cons.mp hmem with heq | h
            · have h2 : p = p0 := congrArg Prod.snd heq
              rw [h2, hl] at hnone
              exact absurd hnone (by simp)
            · exact h
          simpa [members_loop, hl] using ih _ hrest
      | none =>
          by_cases hsp : s0 = p0
          · subst hsp
            have hrest : (seg, p) ∈ rest := by
              rcases List.mem_cons.mp hmem with heq | h
              · have h1 : seg = s0 := congrArg Prod.fst heq
                have h2 : p = s0 := congrArg Prod.snd heq
                exact absurd (h1.trans h2.symm) hne
              · exact h
            simpa [members_loop, hl] using ih _ hrest
          · exact ⟨"This should not happen: parent " ++ toString p0
              ++ " not retrieved for segment " ++ toString s0,
              by simp [members_loop, hl, hsp]⟩

/-- If every zipped pair for segment `seg` carries `seg` itself as parent,
`seg`'s parent is absent from `mapping`, and `seg` occurs among the pairs
(or its entry is already `[seg]`), then on normal return the members dict
maps `seg` to `[seg]`. -/
theorem members_loop_self_entry (mapping : List (Int × List Int)) (seg : Int)
    (hnone : dictLookup mapping seg = none) :
    ∀ (pairs : List (Int × Int)) (acc members : List (Int × List Int)),
      (∀ q ∈ pairs, q.1 = seg → q.2 = seg) →
      ((seg, seg) ∈ pairs ∨ dictLookup acc seg = some [seg]) →
      members_loop mapping pairs acc = Except.ok members →
      dictLookup members seg = some [seg] := by
  intro pairs
  induction pairs with
  | nil =>
      intro acc members _ hdisj hok
      simp only [members_loop] at hok
      rcases hdisj with h | h
      · simp at h
      · injection hok with hok
        rw [← hok]; exact h
  | cons q rest ih =>
      obtain ⟨s0, p0⟩ := q
      intro acc members hall hdisj hok
      cases hl : dictLookup mapping p0 with
      | some children =>
          have hs0 : s0 ≠ seg := by
            intro hs
            have hp0 : p0 = seg := hall (s0, p0) (List.mem_cons_self ..) hs
            rw [hp0] at hl
            rw [hl] at hnone
            exact absurd hnone (by simp)
          simp only [members_loop, hl] at hok
          refine ih (dictSet acc s0 (p0 :: children)) members
            (fun q hq => hall q (List.mem_cons_of_mem _ hq)) ?_ hok
          rcases hdisj with h | h
          · rcases List.mem_cons.mp h with heq | hmem
            · exact absurd (congrArg Prod.fst heq).symm hs0
            · exact Or.inl hmem
          · exact Or.inr (by rw [dictLookup_dictSet_ne _ _ _ _ hs0]; exact h)
      | none =>
          by_cases hsp : s0 = p0
          · subst hsp
            have hok2 : members_loop mapping rest (dictSet acc s0 [s0])
                = Except.ok members := by
              simpa [members_loop, hl] using hok
            refine ih (dictSet acc s0 [s0]) members
              (fun q hq => hall q (List.mem_cons_of_mem _ hq)) ?_ hok2
            by_cases hs0 : s0 = seg
            · subst hs0
              exact Or.inr (by rw [dictLookup_dictSet_self])
            · rcases hdisj with h | h
              · rcases List.mem_cons.mp h with heq | hmem
                · exact absurd (congrArg Prod.fst heq).symm hs0
                · exact Or.inl hmem
              · exact Or.inr
                  (by rw [dictLookup_dictSet_ne _ _ _ _ hs0]; exact h)
          · simp [members_loop, hl, hsp] at hok

theorem mem_zip_map_self {α β : Type} (f : α → β) :
    ∀ (l : List α) (a : α), a ∈ l → (a, f a) ∈ l.zip (l.map f) := by
  intro l
  induction l with
  | nil => intro a h; simp at h
  | cons x xs ih =>
      intro a ha
      rcases List.mem_cons.mp ha with rfl | h
      · simp
      · simpa using Or.inr (ih a h)

theorem zip_map_snd_eq {α β : Type} (f : α → β) :
    ∀ (l : List α) (q : α × β), q ∈ l.zip (l.map f) → q.2 = f q.1 := by
  intro l
  induction l with
  | nil => intro q h; simp at h
  | cons x xs ih =>
      intro q hq
      rcases List.mem_cons.mp (by simpa using hq) with rfl | h
      · rfl
      · exact ih q h

/-- Claim C4 (counterexample): with exactly the claim's fixture — requested
identifiers `[10, 11]`, parent rows `{(10→100)}` only, member rows
`{(10→100), (11→100), (12→100)}` — the code resolves 11 to itself (no
parent row mentions it), finds no members for parent 11, takes the unmerged
branch and returns `11 ↦ [11]`, not the claimed `11 ↦ [100, 10, 11, 12]`. -/
theorem c4_scenario_counterexample :
    get_groups cfg1M [10, 11] [(10, 100)] [(10, 100), (11, 100), (12, 100)]
        = Except.ok [(10, [100, 10, 11, 12]), (11, [11])]
      ∧ dictLookup ([(10, [100, 10, 11, 12]), (11, [11])] : List (Int × List Int)) 11
          = some [11]
      ∧ some ([11] : List Int) ≠ some [100, 10, 11, 12] :=
  ⟨rfl, rfl, by decide⟩

/-- Claim C4 as amended: (a) the scenario holds once the parent rows also
contain `(11→100)` (the fixture's member rows say 11 is a child of 100, so
a consistent parent query must return that row too); (b) the invariant, for
calls whose parent query fits the length bound in one shot (chunking would
empty the caller's list in place and silently drop identifiers): whenever a
requested identifier's resolved parent is absent from the member-lookup
results, either the whole call aborts with an error, or the parent equals
the identifier itself and any normal return maps it to `[identifier]`. -/
theorem c4_groups_membership_invariant :
    get_groups cfg1M [10, 11] [(10, 100), (11, 100)]
          [(10, 100), (11, 100), (12, 100)]
        = Except.ok [(10, [100, 10, 11, 12]), (11, [100, 10, 11, 12])]
      ∧ ∀ (cfg : GraphConfig) (sv_id : List Int)
          (parentRows memberRows : List (Int × Int)) (seg : Int),
          (renderQuery (parent_mapping_query cfg.representative_tbl) sv_id).length
              ≤ cfg.MAX_QUERY_LENGTH →
          seg ∈ sv_id →
          dictLookup (member_mapping memberRows) (resolve_parent parentRows seg)
              = none →
          ((∃ msg, get_groups cfg sv_id parentRows memberRows = Except.error msg)
            ∨ (resolve_parent parentRows seg = seg
                ∧ ∀ members,
                    get_groups cfg sv_id parentRows memberRows = Except.ok members →
                    dictLookup members seg = some [seg])) := by
  constructor
  · rfl
  · intro cfg sv_id parentRows memberRows seg hfit hmem hnone
    have hres : resolve_parent parentRows seg
        = (last_parent parentRows seg).getD seg := resolve_parent_eq_last _ _
    have hgroups : get_groups cfg sv_id parentRows memberRows
        = members_loop (member_mapping memberRows)
            (sv_id.zip (sv_id.map (fun sv => (last_parent parentRows sv).getD sv)))
            [] := by
      unfold get_groups
      rw [get_map_of_fit cfg sv_id parentRows hfit, chunk_run_snd_of_fit _ _ _ hfit]
    by_cases hself : resolve_parent parentRows seg = seg
    · refine Or.inr ⟨hself, fun members hok => ?_⟩
      rw [hgroups] at hok
      refine members_loop_self_entry (member_mapping memberRows) seg
        (by rw [← hself]; exact hnone) _ [] members ?_ ?_ hok
      · intro q hq h1
        have h2 := zip_map_snd_eq _ sv_id q hq
        rw [h2, h1, ← hres, hself]
      · refine Or.inl ?_
        have hzm : (seg, (last_parent parentRows seg).getD seg)
            ∈ sv_id.zip (sv_id.map (fun sv => (last_parent parentRows sv).getD sv)) :=
          mem_zip_map_self (fun sv => (last_parent parentRows sv).getD sv) sv_id seg hmem
        rw [← hres, hself] at hzm
        exact hzm
    · refine Or.inl ?_
      rw [hgroups]
      refine members_loop_error (member_mapping memberRows) seg
        (resolve_parent parentRows seg) hnone (fun h => hself h.symm) _ [] ?_
      have hzm : (seg, (last_parent parentRows seg).getD seg)
          ∈ sv_id.zip (sv_id.map (fun sv => (last_parent parentRows sv).getD sv)) :=
        mem_zip_map_self (fun sv => (last_parent parentRows sv).getD sv) sv_id seg hmem
      rw [← hres] at hzm
      exact hzm

/-- Concrete instance of C4's amended invariant at `sv_id = [5]` with no
rows: parent 5 resolves to itself and the entry is `[5]`. -/
theorem c4_groups_membership_invariant_witness :
    (∃ msg, get_groups cfg1M [5] [] [] = Except.error msg)
      ∨ (resolve_parent [] 5 = 5
          ∧ ∀ members, get_groups cfg1M [5] [] [] = Except.ok members →
              dictLookup members 5 = some [5]) :=
  c4_groups_membership_invariant.2 cfg1M [5] [] [] 5 (by decide) (by decide)
    (by decide)

/-- A row's `frozenset([int(row.id1), int(row.id2)])` (lines 213, 249),
represented canonically as the pair sorted ascending.  The frozenset has
one element — `len(e_set) != 2` — exactly when the two components
coincide. -/
def edgeKey (r : Int × Int) : Int × Int :=
  if r.1 ≤ r.2 then r else (r.2, r.1)

/-- `document_multiple_edges` (lines 432-440): a repeated edge is seeded at
count 2 on its second observation and incremented by 1 thereafter. -/
def document_multiple_edges (multiple_edges : List ((Int × Int) × Nat))
    (edge : Int × Int) : List ((Int × Int) × Nat) :=
  match dictLookup multiple_edges edge with
  | some n => dictSet multiple_edges edge (n + 1)
  | none => dictSet multiple_edges edge 2

/-- One iteration of the `for e_set in results` loops of
`get_equivalence_list` (lines 452-458 and 467-470): skip one-element
frozensets (`len(e_set) != 2`), then — multiplicity tracking on and edge
already seen — document the repeat, then add the edge to the running set
(the Python `set` is modeled as a first-insertion-ordered duplicate-free
list; `add` on a present element is a no-op). -/
def eq_fold_step (multi_edge_count : Bool)
    (st : List (Int × Int) × List ((Int × Int) × Nat)) (e_set : Int × Int) :
    List (Int × Int) × List ((Int × Int) × Nat) :=
  if e_set.1 = e_set.2 then st
  else
    let me := if multi_edge_count ∧ e_set ∈ st.1 then
        document_multiple_edges st.2 e_set
      else st.2
    (if e_set ∈ st.1 then st.1 else st.1 ++ [e_set], me)

/-- `query_src_edge_list` (lines 187-215): chunk the two-sided edge query,
hand each emitted item to the executor, and collect the rows of all chunks
in order as frozensets.  The executor `exec` is the external BigQuery
collaborator: whatever rows it returns for an item are its business. -/
def query_src_edge_list_run (cfg : GraphConfig)
    (exec : QueryItem → List (Int × Int)) (sv_id : List Int) :
    List (Int × Int) × List QueryItem :=
  let queries := chunk_query_str cfg.MAX_QUERY_LENGTH
      (src_edge_two_sided_query cfg.src_tbl) sv_id
  (((queries.map exec).flatten).map edgeKey, queries)

/-- `query_src_edge_list_agglo_objects` (lines 217-251): same shape with
the one-sided query template. -/
def query_src_edge_list_agglo_objects_run (cfg : GraphConfig)
    (exec : QueryItem → List (Int × Int)) (sv_id : List Int) :
    List (Int × Int) × List QueryItem :=
  let queries := chunk_query_str cfg.MAX_QUERY_LENGTH
      (src_edge_one_sided_query cfg.src_tbl) sv_id
  (((queries.map exec).flatten).map edgeKey, queries)

/-- The two return shapes of `get_equivalence_list`: a bare edge list, or
(whole-object mode with multiplicity tracking) an edge list paired with the
multiplicity dict. -/
inductive EqResult where
  | edges (es : List (Int × Int))
  | edgesWithCounts (es : List (Int × Int)) (counts : List ((Int × Int) × Nat))
deriving DecidableEq

/-- `get_equivalence_list` (lines 396-473), with the query items handed to
`client.query` returned as a trace (second component).  The guard at lines
442-446 raises before anything is built, so the trace is empty there.  In
the two-sided branch `multi_edge_count` is necessarily `false` (any true
value was already rejected), and its loop carries no multiplicity code. -/
def get_equivalence_list_run (cfg : GraphConfig)
    (exec : QueryItem → List (Int × Int)) (sv_id : List Int)
    (multi_edge_count whole_agglo_objects : Bool) :
    Except String EqResult × List QueryItem :=
  if multi_edge_count && !whole_agglo_objects then
    (Except.error ("This is not supported. The number of multiple edges "
      ++ "cannot be reliably estimated for large queries unless the edge "
      ++ "list of the whole agglomerated objects is queried"), [])
  else if whole_agglo_objects then
    let rq := query_src_edge_list_agglo_objects_run cfg exec sv_id
    let st := rq.1.foldl (eq_fold_step multi_edge_count) ([], [])
    (if multi_edge_count then
        Except.ok (EqResult.edgesWithCounts st.1 st.2)
      else
        Except.ok (EqResult.edges st.1), rq.2)
  else
    let rq := query_src_edge_list_run cfg exec sv_id
    let st := rq.1.foldl (eq_fold_step false) ([], [])
    (Except.ok (EqResult.edges st.1), rq.2)

/-- Number of occurrences of the frozenset `e` in a list of frozensets. -/
def edgeCount : List (Int × Int) → (Int × Int) → Nat
  | [], _ => 0
  | r :: rs, e => (if r = e then 1 else 0) + edgeCount rs e

theorem edgeCount_append (l1 l2 : List (Int × Int)) (e : Int × Int) :
    edgeCount (l1 ++ l2) e = edgeCount l1 e + edgeCount l2 e := by
  induction l1 with
  | nil => simp [edgeCount]
  | cons r rs ih => simp [edgeCount, ih]; omega

theorem edgeCount_pos_iff_mem (l : List (Int × Int)) (e : Int × Int) :
    0 < edgeCount l e ↔ e ∈ l := by
  induction l with
  | nil => simp [edgeCount]
  | cons r rs ih =>
      by_cases h : r = e
      · subst h; simp [edgeCount]
      · simp [edgeCount, h, ih, Ne.symm h]

theorem edgeKey_ne (a b : Int) (h : a ≠ b) :
    (edgeKey (a, b)).1 ≠ (edgeKey (a, b)).2 := by
  unfold edgeKey
  by_cases hle : a ≤ b
  · simpa [hle] using h
  · simpa [hle] using Ne.symm h

/-- Invariant of the whole-object multiplicity fold after processing the
frozensets in `processed`: every non-degenerate edge is in the running set
exactly once as soon as it occurred at all, and is in the multiplicity dict
with its exact occurrence count as soon as it occurred at least twice. -/
def EqInv (processed : List (Int × Int))
    (st : List (Int × Int) × List ((Int × Int) × Nat)) : Prop :=
  ∀ e : Int × Int, e.1 ≠ e.2 →
    (edgeCount st.1 e = if 1 ≤ edgeCount processed e then 1 else 0)
      ∧ (dictLookup st.2 e
          = if 2 ≤ edgeCount processed e then some (edgeCount processed e)
            else none)

theorem eq_inv_init : EqInv [] ([], []) := by
  intro e _
  constructor <;> simp [edgeCount, dictLookup]

theorem eq_fold_step_inv (proc : List (Int × Int))
    (st : List (Int × Int) × List ((Int × Int) × Nat)) (hd : Int × Int)
    (h : EqInv proc st) : EqInv (proc ++ [hd]) (eq_fold_step true st hd) := by
  intro e he
  have hc : edgeCount (proc ++ [hd]) e
      = edgeCount proc e + (if hd = e then 1 else 0) := by
    rw [edgeCount_append]; simp [edgeCount]
  by_cases hdeg : hd.1 = hd.2
  · have hne : hd ≠ e := by
      intro hh; rw [hh] at hdeg; exact he hdeg
    have hstep : eq_fold_step true st hd = st := by
      simp [eq_fold_step, hdeg]
    rw [hstep, hc, if_neg hne]
    simpa using h e he
  · obtain ⟨h1, h2⟩ := h e he
    obtain ⟨hh1, hh2⟩ := h hd hdeg
    by_cases hmem : hd ∈ st.1
    · have hcnt1 : 1 ≤ edgeCount proc hd := by
        by_contra hlt
        have hz : edgeCount st.1 hd = 0 := by rw [hh1, if_neg hlt]
        have hpos : 0 < edgeCount st.1 hd := (edgeCount_pos_iff_mem _ _).mpr hmem
        omega
      have hstep : eq_fold_step true st hd
          = (st.1, document_multiple_edges st.2 hd) := by
        simp [eq_fold_step, hdeg, hmem]
      rw [hstep]
      by_cases hde : hd = e
      · subst hde
        constructor
        · rw [hc, if_pos rfl, h1, if_pos hcnt1, if_pos (by omega)]
        · rw [hc, if_pos rfl]
          by_cases hc2 : 2 ≤ edgeCount proc hd
          · have hl : dictLookup st.2 hd = some (edgeCount proc hd) := by
              rw [h2, if_pos hc2]
            have hgoal : dictLookup (document_multiple_edges st.2 hd) hd
                = some (edgeCount proc hd + 1) := by
              simp [document_multiple_edges, hl, dictLookup_dictSet_self]
            rw [hgoal, if_pos (by omega)]
          · have hone : edgeCount proc hd = 1 := by omega
            have hl : dictLookup st.2 hd = none := by
              rw [h2, if_neg hc2]
            have hgoal : dictLookup (document_multiple_edges st.2 hd) hd
                = some 2 := by
              simp [document_multiple_edges, hl, dictLookup_dictSet_self]
            rw [hgoal, hone]
            simp
      · constructor
        · rw [hc, if_neg hde]
          simpa using h1
        · rw [hc, if_neg hde]
          have hdoc : dictLookup (document_multiple_edges st.2 hd) e
              = dictLookup st.2 e := by
            unfold document_multiple_edges
            cases dictLookup st.2 hd with
            | some n => exact dictLookup_dictSet_ne _ _ _ _ hde
            | none => exact dictLookup_dictSet_ne _ _ _ _ hde
          rw [hdoc]
          simpa using h2
    · have hcnt0 : edgeCount proc hd = 0 := by
        by_contra hnz
        have hge : 1 ≤ edgeCount proc hd := by omega
        have hone : edgeCount st.1 hd = 1 := by rw [hh1, if_pos hge]
        exact hmem ((edgeCount_pos_iff_mem _ _).mp (by omega))
      have hstep : eq_fold_step true st hd = (st.1 ++ [hd], st.2) := by
        simp [eq_fold_step, hdeg, hmem]
      rw [hstep]
      by_cases hde : hd = e
      · subst hde
        constructor
        · rw [edgeCount_append, hc, hcnt0, h1, hcnt0]
          simp [edgeCount]
        · rw [hc, hcnt0, h2, hcnt0]
          simp
      · constructor
        · rw [edgeCount_append, hc, if_neg hde, h1]
          simp [edgeCount, hde]
        · rw [hc, if_neg hde]
          simpa using h2

theorem eq_fold_inv :
    ∀ (rows proc : List (Int × Int))
      (st : List (Int × Int) × List ((Int × Int) × Nat)),
      EqInv proc st → EqInv (proc ++ rows) (rows.foldl (eq_fold_step true) st) := by
  intro rows
  induction rows with
  | nil => intro proc st h; simpa using h
  | cons r rs ih =>
      intro proc st h
      have h2 := ih (proc ++ [r]) (eq_fold_step true st r)
        (eq_fold_step_inv proc st r h)
      simpa [List.append_assoc] using h2

theorem agglo_plumbing (rows : List (Int × Int)) :
    (query_src_edge_list_agglo_objects_run cfg1M (fun _ => rows) [1]).1
      = rows.map edgeKey := by
  have hq : chunk_query_str cfg1M.MAX_QUERY_LENGTH
      (src_edge_one_sided_query cfg1M.src_tbl) [1]
      = [QueryItem.strList
          [renderQuery (src_edge_one_sided_query cfg1M.src_tbl) [1]]] := rfl
  simp [query_src_edge_list_agglo_objects_run, hq]

theorem get_eq_whole_eval (rows : List (Int × Int)) :
    (get_equivalence_list_run cfg1M (fun _ => rows) [1] true true).1
      = Except.ok (EqResult.edgesWithCounts
          ((rows.map edgeKey).foldl (eq_fold_step true) ([], [])).1
          ((rows.map edgeKey).foldl (eq_fold_step true) ([], [])).2) := by
  simp [get_equivalence_list_run, agglo_plumbing]

/-- Claim C7: whole-object mode with multiplicity tracking — for every row
sequence in which the non-degenerate undirected edge `{a, b}` occurs
exactly `k ≥ 2` times (counting both orientations), the returned
multiplicity dict maps that edge to exactly `k` (seeded at 2 on the second
observation, +1 per further observation), the edge appears exactly once in
the deduplicated edge list, and a non-degenerate edge occurring exactly
once is absent from the multiplicity dict. -/
theorem c7_multiplicity_exact (rows : List (Int × Int)) (a b : Int) (k : Nat)
    (hab : a ≠ b) (hk : edgeCount (rows.map edgeKey) (edgeKey (a, b)) = k)
    (hk2 : 2 ≤ k) :
    ∃ es counts,
      (get_equivalence_list_run cfg1M (fun _ => rows) [1] true true).1
          = Except.ok (EqResult.edgesWithCounts es counts)
        ∧ dictLookup counts (edgeKey (a, b)) = some k
        ∧ edgeCount es (edgeKey (a, b)) = 1
        ∧ ∀ e : Int × Int, e.1 ≠ e.2 → edgeCount (rows.map edgeKey) e = 1 →
            dictLookup counts e = none := by
  have hkey : (edgeKey (a, b)).1 ≠ (edgeKey (a, b)).2 := edgeKey_ne a b hab
  have hinv := eq_fold_inv (rows.map edgeKey) [] ([], []) eq_inv_init
  rw [List.nil_append] at hinv
  refine ⟨_, _, get_eq_whole_eval rows, ?_, ?_, ?_⟩
  · have hl := (hinv _ hkey).2
    rw [hk] at hl
    rw [hl, if_pos hk2]
  · have hl := (hinv _ hkey).1
    rw [hk] at hl
    rw [hl, if_pos (by omega)]
  · intro e he h1
    have hl := (hinv e he).2
    rw [h1] at hl
    rw [hl, if_neg (by omega)]

/-- Concrete instance of C7: rows `(1,2)` and `(2,1)` are the same
undirected edge observed twice; its multiplicity is exactly 2 and it is
listed once. -/
theorem c7_multiplicity_exact_witness :
    ∃ es counts,
      (get_equivalence_list_run cfg1M (fun _ => [(1, 2), (2, 1)]) [1] true true).1
          = Except.ok (EqResult.edgesWithCounts es counts)
        ∧ dictLookup counts (edgeKey (1, 2)) = some 2
        ∧ edgeCount es (edgeKey (1, 2)) = 1
        ∧ ∀ e : Int × Int, e.1 ≠ e.2 →
            edgeCount (([(1, 2), (2, 1)] : List (Int × Int)).map edgeKey) e = 1 →
            dictLookup counts e = none :=
  c7_multiplicity_exact [(1, 2), (2, 1)] 1 2 2 (by decide) (by decide) (by decide)

/-- Claim C8: requesting multiplicity tracking together with the two-sided
(partial-object) edge query shape raises the unsupported-combination
`ValueError` before any query string is built: for every configuration,
every executor and every identifier list the result is that error paired
with an empty query trace — nothing reaches the executor and no partial
result is returned. -/
theorem c8_multi_without_whole_rejected (cfg : GraphConfig)
    (exec : QueryItem → List (Int × Int)) (sv_id : List Int) :
    get_equivalence_list_run cfg exec sv_id true false
      = (Except.error ("This is not supported. The number of multiple edges "
          ++ "cannot be reliably estimated for large queries unless the edge "
          ++ "list of the whole agglomerated objects is queried"), []) := rfl
